import Mathlib

/-!
Verification development for the openvpn-stats repository.

Shallow embedding of the three source files:
  * `mongo_manager.py`   — `MongoManager.connection_log`, the usage-ledger
    reconciler (continuation / reconnect / fresh-record merging and the
    MongoDB `$set` write it issues);
  * `openvpn_management.py` — `OpenvpnManagement.socket_connect` and
    `__wait_for_data`, the management-console line-protocol client;
  * `openvpn-logparser.py`  — the log-scanning accumulation loop of `main`.

Python strings are modelled as `List Char` where their character structure
matters (splitting on `'.'`, suffix tests) and as `String` where they are
opaque.  Python `datetime` values and the second counts derived from them
are modelled as integer seconds (log and status timestamps are
whole-second values); the float arithmetic of the duration-formatting
block is modelled exactly over `ℚ`.  Byte counters are integers.  Python
exceptions are modelled with an explicit `Except` error type.
-/

deriving instance DecidableEq for Except

/-- Python exceptions that the modelled code paths can raise. -/
inductive PyExc where
  | indexError
  | nameError
  | attributeError
  | timeoutError
  | socketError
  | otherError
deriving DecidableEq, Repr

/-- Lookup in a Python dict modelled as an association list (keys unique,
insertion order preserved). -/
def alookup {κ β : Type} [DecidableEq κ] : List (κ × β) → κ → Option β
  | [], _ => none
  | (k, v) :: rest, k' => if k = k' then some v else alookup rest k'

/-- Helper for `pySplit`: returns the chunk of characters before the first
separator together with the list of later chunks, processing from the right. -/
def pySplitAux (sep : Char) : List Char → List Char × List (List Char)
  | [] => ([], [])
  | c :: rest =>
    let p := pySplitAux sep rest
    if c = sep then ([], p.1 :: p.2) else (c :: p.1, p.2)

/-- Python `str.split(sep)` for a one-character separator: `"".split('.')`
gives `[""]`, `"a..b".split('.')` gives `["a", "", "b"]`. -/
def pySplit (sep : Char) (l : List Char) : List (List Char) :=
  (pySplitAux sep l).1 :: (pySplitAux sep l).2

/-- Python float `%` with the given modulus (result has the sign of the
modulus; for a positive modulus the result lies in `[0, b)`). -/
def pymod (a b : ℚ) : ℚ := a - b * ⌊a / b⌋

/-- Python `int()` applied to a float: truncation toward zero. -/
def pyint (x : ℚ) : ℤ := if x < 0 then -⌊-x⌋ else ⌊x⌋

/-- Python `f"{n:02}"`: decimal rendering left-padded with `0` to width 2. -/
def pad2 (n : ℤ) : String :=
  if (toString n).length < 2 then "0" ++ toString n else toString n

/-- The duration-formatting block that `connection_log` repeats verbatim in
its three branches (`mongo_manager.py` lines 169-172, 204-207, 239-242):
`hours = int((s / (60*60)) % 24)`, `seconds_ = int(s % 60)`,
`minutes = int((s / 60) % 60)`, rendered `f"{hours:02}:{minutes:02}:{seconds_:02}"`. -/
def formatDuration (s : ℚ) : String :=
  let hours := pyint (pymod (s / (60 * 60)) 24)
  let seconds_ := pyint (pymod s 60)
  let minutes := pyint (pymod (s / 60) 60)
  pad2 hours ++ ":" ++ pad2 minutes ++ ":" ++ pad2 seconds_

/-- Modelled from the spec's words (for comparison with `formatDuration`):
zero-padded `HH:MM:SS` with `HH = floor(x/3600) mod 24`,
`MM = floor(x/60) mod 60`, `SS = floor(x) mod 60`. -/
def specFormatHMS (x : ℚ) : String :=
  pad2 (⌊x / 3600⌋ % 24) ++ ":" ++ pad2 (⌊x / 60⌋ % 60) ++ ":" ++ pad2 (⌊x⌋ % 60)

/-- The `bytes` sub-document of a connection event / stored day record. -/
structure ConnBytes where
  received : ℤ
  sent : ℤ
deriving DecidableEq, Repr

/-- The `conn_data` dict passed to `MongoManager.connection_log`.
Timestamps (`start`, `last`) are `datetime` values modelled as rational
seconds; `seconds` is the caller-supplied float second count; `date` is the
dot-separated date string that the code splits on `'.'`. -/
structure ConnData where
  id : String
  ip : String
  port : ℤ
  date : List Char
  start : ℤ
  last : ℤ
  seconds : ℤ
  bytes : ConnBytes
deriving DecidableEq, Repr

/-- One per-day history record as stored under
`user_list.history.<year>.<month>.<day>`. -/
structure DayRecord where
  ip : String
  port : ℤ
  start : ℤ
  last : ℤ
  seconds : ℤ
  duration : String
  bytesReceived : ℤ
  bytesSent : ℤ
deriving DecidableEq, Repr

/-- The nested `history` mapping `year → month → day → record`, each level a
Python dict keyed by a string. -/
abbrev History := List (List Char × List (List Char × List (List Char × DayRecord)))

instance : DecidableEq (List (List Char × List (List Char × DayRecord))) :=
  inferInstance

instance : DecidableEq History :=
  inferInstance

/-- A `user_list` document as read by `connection_log`. -/
structure UserData where
  id : String
  history : History
deriving DecidableEq, Repr

/-- The `$set` write issued through `update_one`: the dotted field path as
MongoDB decomposes it (split on `'.'`), the `upsert` flag, and the record
value being stored. -/
structure WriteOp where
  path : List (List Char)
  upsert : Bool
  record : DayRecord
deriving DecidableEq, Repr

/-- The MongoDB field path `'history.{}'.format(conn_data['date'])` as the
store decomposes it: the dotted string split on `'.'`. -/
def writePath (date : List Char) : List (List Char) :=
  pySplit '.' ("history.".toList ++ date)

/-- Record computed in the day-record-found branch of `connection_log`
(`mongo_manager.py` lines 153-193): same `start` means an uninterrupted
continuation (delta of `last` timestamps, byte counters replaced); a
different `start` means a reconnection (delta `last - start` of the event,
byte counters summed with the stored ones). -/
def mergeDayRecord (conn : ConnData) (stored : DayRecord) : DayRecord :=
  let startDate := if conn.start = stored.start then stored.start else conn.start
  let seconds :=
    if conn.start = stored.start then conn.last - stored.last
    else conn.last - conn.start
  let byteRec :=
    if conn.start = stored.start then conn.bytes.received
    else conn.bytes.received + stored.bytesReceived
  let byteSent :=
    if conn.start = stored.start then conn.bytes.sent
    else conn.bytes.sent + stored.bytesSent
  let newSeconds := stored.seconds + seconds
  { ip := conn.ip
    port := conn.port
    start := startDate
    last := conn.last
    seconds := newSeconds
    duration := formatDuration (newSeconds : ℚ)
    bytesReceived := byteRec
    bytesSent := byteSent }

/-- Record written when no stored day record (or no user document) exists
(`mongo_manager.py` lines 203-232 and 238-267, identical record bodies):
the event's fields verbatim, duration derived from `conn_data['seconds']`. -/
def freshDayRecord (conn : ConnData) : DayRecord :=
  { ip := conn.ip
    port := conn.port
    start := conn.start
    last := conn.last
    seconds := conn.seconds
    duration := formatDuration (conn.seconds : ℚ)
    bytesReceived := conn.bytes.received
    bytesSent := conn.bytes.sent }

/-- Python list indexing `xs[i]`: `IndexError` when out of range. -/
def pyIndex {β : Type} (xs : List β) (i : ℕ) : Except PyExc β :=
  match xs.get? i with
  | some v => .ok v
  | none => .error .indexError

/-- The short-circuit membership test and nested accesses of
`mongo_manager.py` line 150:
`date_key[0] in h and date_key[1] in h[date_key[0]] and date_key[2] in ...`,
returning the stored day record when all three levels are present.  Each
`date_key[i]` access can raise `IndexError` if the split produced fewer
components. -/
def findStored (history : History) (dateKey : List (List Char)) :
    Except PyExc (Option DayRecord) :=
  match pyIndex dateKey 0 with
  | .error e => .error e
  | .ok k0 =>
    match alookup history k0 with
    | none => .ok none
    | some m1 =>
      match pyIndex dateKey 1 with
      | .error e => .error e
      | .ok k1 =>
        match alookup m1 k1 with
        | none => .ok none
        | some m2 =>
          match pyIndex dateKey 2 with
          | .error e => .error e
          | .ok k2 => .ok (alookup m2 k2)

/-- Direct nested lookup `history[y][m][d]` (total, for stating theorems). -/
def nestedFind (history : History) (y m d : List Char) : Option DayRecord :=
  match alookup history y with
  | none => none
  | some m1 =>
    match alookup m1 m with
    | none => none
    | some m2 => alookup m2 d

/-- `MongoManager.connection_log` (`mongo_manager.py` lines 143-272).
The store is abstracted into its two observable interactions: `userOpt` is
the result of `find_one` on `user_list`, and `ack` whether `update_one`
reports `acknowledged`.  On success the function returns the single write
it issued together with the Python return value `(True, None)`.

When the write is not acknowledged, the source runs
`logger.error(f'... Chat id: {chat_id_new}, chat name: {chat_name}, user
count: {user_count}.')` — an f-string referencing names that are not
defined anywhere in the module — so the call raises `NameError` before the
`return False, "There was some error please retry"` line can run.  In the
day-record-found branch the acknowledged test appears twice (lines 198 and
233, the second at the outer indentation level), modelled by nested `if`s. -/
def connection_log (userOpt : Option UserData) (ack : Bool) (conn : ConnData) :
    Except PyExc (WriteOp × Bool × Option String) :=
  match userOpt with
  | some user =>
    match findStored user.history (pySplit '.' conn.date) with
    | .error e => .error e
    | .ok (some stored) =>
      if ack then
        if ack then
          .ok (⟨writePath conn.date, false, mergeDayRecord conn stored⟩, true, none)
        else .error .nameError
      else .error .nameError
    | .ok none =>
      if ack then
        .ok (⟨writePath conn.date, false, freshDayRecord conn⟩, true, none)
      else .error .nameError
  | none =>
    if ack then
      .ok (⟨writePath conn.date, true, freshDayRecord conn⟩, true, none)
    else .error .nameError

/-- Scan to the end of the `>INFO` line being removed by the regex
`re.sub('>INFO(.)*\r\n', '', chunk)`: `.` does not match `'\n'`, so the
matched stretch ends at the first `'\n'`, and only when that `'\n'` is
preceded by `'\r'`; otherwise there is no match at this position. -/
def dropInfoLine : List Char → Option (List Char)
  | '\r' :: '\n' :: rest => some rest
  | '\n' :: _ => none
  | _ :: rest => dropInfoLine rest
  | [] => none

/-- Fueled worker for `stripInfo`; every step consumes at least one input
character, so fuel equal to the input length always suffices. -/
def stripInfoGo : ℕ → List Char → List Char
  | 0, l => l
  | _ + 1, [] => []
  | fuel + 1, '>' :: 'I' :: 'N' :: 'F' :: 'O' :: rest =>
    match dropInfoLine rest with
    | some rest2 => stripInfoGo fuel rest2
    | none => '>' :: stripInfoGo fuel ('I' :: 'N' :: 'F' :: 'O' :: rest)
  | fuel + 1, c :: rest => c :: stripInfoGo fuel rest

/-- `re.sub('>INFO(.)*\r\n', '', chunk)` of `__wait_for_data`
(`openvpn_management.py` line 155): every `>INFO ... \r\n` stretch is
removed; an unterminated `>INFO` is kept and scanning continues after the
`'>'`, as the regex engine does. -/
def stripInfo (l : List Char) : List Char := stripInfoGo l.length l

/-- The receive loop of `OpenvpnManagement.__wait_for_data`
(`openvpn_management.py` lines 151-172) in the `send_command` path (the
`password` argument is `None` there, so the `ENTER PASSWORD:` branch only
logs and sends — it does not change the accumulated data).  `chunks` is the
sequence of strings successive `recv(1024)` calls deliver; the result is
`some (n, data)` when the loop breaks after consuming `n` chunks, returning
`data`, and `none` when the supplied chunks are exhausted without a break
(the real loop would block forever on `recv`). -/
def waitForDataAux (command : Option String) (data : List Char) :
    List (List Char) → Option (ℕ × List Char)
  | [] => none
  | chunk :: rest =>
    let d := data ++ stripInfo chunk
    if ("SUCCESS: password is correct\r\n".toList).isSuffixOf d then some (1, d)
    else if command = some "load-stats\n" ∧ d ≠ [] then some (1, d)
    else if ("\nEND\r\n".toList).isSuffixOf d then some (1, d)
    else
      match waitForDataAux command d rest with
      | some (n, out) => some (n + 1, out)
      | none => none

/-- `__wait_for_data` starting from an empty buffer. -/
def waitForData (command : Option String) (chunks : List (List Char)) :
    Option (ℕ × List Char) :=
  waitForDataAux command [] chunks

/-- State of the instance attribute `self.__socket`: never assigned,
assigned and open, or shut down and closed. -/
inductive SockAttr where
  | unset
  | openSock
  | closedSock
deriving DecidableEq, Repr

/-- Observable client state after `socket_connect`: the `__connected` flag
and the socket attribute. -/
structure MgmtState where
  connected : Bool
  sockAttr : SockAttr
deriving DecidableEq, Repr

/-- How the environment behaves during `socket_connect`: success, or an
exception raised before `self.__socket` is assigned (TCP
`create_connection` fails), or after it is assigned (unix `connect`, the
auth handshake, or any later step fails). -/
inductive ConnectOutcome where
  | ok
  | failBeforeAssign (e : PyExc)
  | failAfterAssign (e : PyExc)
deriving DecidableEq, Repr

/-- The three `except` handlers of `socket_connect`
(`openvpn_management.py` lines 93-115), given the socket-attribute state at
the moment the exception arrives.  Only the `socket.timeout` handler tests
`if self.__socket:` and calls `socket_disconnect()` (modelled as closing
the socket); on a fresh instance whose attribute was never assigned that
very test raises `AttributeError`.  The `socket.error` and generic
handlers set `__connected = False` and re-raise without closing anything. -/
def connectHandler (attr : SockAttr) (e : PyExc) : MgmtState × Option PyExc :=
  match e with
  | .timeoutError =>
    match attr with
    | .unset => ({ connected := false, sockAttr := .unset }, some .attributeError)
    | .openSock => ({ connected := false, sockAttr := .closedSock }, some .timeoutError)
    | .closedSock => ({ connected := false, sockAttr := .closedSock }, some .timeoutError)
  | e => ({ connected := false, sockAttr := attr }, some e)

/-- `OpenvpnManagement.socket_connect` (`openvpn_management.py` lines
77-115) as a function of the prior socket-attribute state and the
environment outcome: returns the resulting client state and the exception
propagated to the caller, if any. -/
def socket_connect (pre : SockAttr) (o : ConnectOutcome) : MgmtState × Option PyExc :=
  match o with
  | .ok => ({ connected := true, sockAttr := .openSock }, none)
  | .failBeforeAssign e => connectHandler pre e
  | .failAfterAssign e => connectHandler .openSock e

/-- One log line of `openvpn-logparser.py` as seen by the three regex tests
of `main` (lines 77, 82, 96), pre-classified for the target user: whether
the line matches the `SENT CONTROL` start pattern, the
`SIGUSR1[soft,connection-reset]` pattern, the `SIGUSR1[soft,ping-restart]`
pattern, and the timestamp parsed from the line (seconds, exact). -/
structure LogLine where
  matchesStart : Bool
  matchesReset : Bool
  matchesRestart : Bool
  time : ℤ
deriving DecidableEq, Repr

/-- The scanning state of `main`: the current start-time anchor and the
`active_time` dict keyed by the calendar day of the start time. -/
structure ScanState where
  startTime : Option ℤ
  activeTime : List (ℤ × ℤ)
deriving DecidableEq, Repr

/-- Calendar day of a timestamp, as a day index (the code uses
`strftime("%Y-%m-%d")`; with the epoch at a midnight, timestamps of the
same calendar day and only those share a day index). -/
def dayOf (t : ℤ) : ℤ := t / 86400

/-- The dict update `active_time[k] += v if k in active_time else = v`
(`openvpn-logparser.py` lines 89-92 and 103-106). -/
def dictAdd (m : List (ℤ × ℤ)) (k : ℤ) (v : ℤ) : List (ℤ × ℤ) :=
  match m with
  | [] => [(k, v)]
  | (k', v') :: rest =>
    if k' = k then (k', v' + v) :: rest else (k', v') :: dictAdd rest k v

/-- The body of the `while` loop of `main` (`openvpn-logparser.py` lines
73-107): the three `if` blocks applied in order to one line. -/
def processLine (st : ScanState) (line : LogLine) : ScanState :=
  let st1 :=
    if line.matchesStart then { st with startTime := some line.time } else st
  let st2 :=
    if line.matchesReset then
      match st1.startTime with
      | some s =>
        { st1 with activeTime := dictAdd st1.activeTime (dayOf s) (line.time - s) }
      | none => st1
    else st1
  if line.matchesRestart then
    match st2.startTime with
    | some s =>
      { st2 with activeTime := dictAdd st2.activeTime (dayOf s) (line.time - s) }
    | none => st2
  else st2

/-- The whole scan of `main`: fold the loop body over the file's lines
starting from no anchor and an empty dict. -/
def scanLog (lines : List LogLine) : ScanState :=
  lines.foldl processLine { startTime := none, activeTime := [] }

/-- Concrete stored day record used to instantiate the theorems below:
start 1000, last 1100, 100 cumulative seconds, 10/20 bytes. -/
def exStored : DayRecord :=
  ⟨"203.0.113.5", 1194, 1000, 1100, 100, "00:01:40", 10, 20⟩

/-- Concrete user document holding `exStored` under 2024 → 10 → 07. -/
def exUser : UserData :=
  ⟨"alice", [("2024".toList, [("10".toList, [("07".toList, exStored)])])]⟩

/-- Continuation event: same start 1000 as `exStored`, later last 1250. -/
def exContinuation : ConnData :=
  ⟨"alice", "203.0.113.5", 1194, "2024.10.07".toList, 1000, 1250, 0, ⟨7, 8⟩⟩

/-- Second continuation event after `exContinuation`: last 1300. -/
def exContinuation2 : ConnData :=
  ⟨"alice", "203.0.113.5", 1194, "2024.10.07".toList, 1000, 1300, 0, ⟨9, 11⟩⟩

/-- Continuation event whose last (1050) precedes the stored last (1100)
although it still satisfies `last >= start`. -/
def exRegress : ConnData :=
  ⟨"alice", "203.0.113.5", 1194, "2024.10.07".toList, 1000, 1050, 0, ⟨7, 8⟩⟩

/-- Reconnect event: new start 1200, last 1250. -/
def exReconnect : ConnData :=
  ⟨"alice", "198.51.100.9", 1194, "2024.10.07".toList, 1200, 1250, 0, ⟨7, 8⟩⟩

/-- Event carrying a dash-separated date key, the format the spec names. -/
def exDash : ConnData :=
  ⟨"alice", "203.0.113.5", 1194, "2024-10-07".toList, 1000, 1250, 0, ⟨7, 8⟩⟩

/-- Log line matching the start marker at time 1700000000. -/
def exLineStart : LogLine := ⟨true, false, false, 1700000000⟩

/-- Log line matching the connection-reset marker 90 s after the start. -/
def exLineReset : LogLine := ⟨false, true, false, 1700000090⟩

/-- Log line matching the connection-reset marker 150 s after the start. -/
def exLineReset2 : LogLine := ⟨false, true, false, 1700000150⟩

/-- Log line matching none of the three patterns. -/
def exLineOther : LogLine := ⟨false, false, false, 1699999000⟩

/-- Division of a rational by a positive natural commutes with the floor:
the floor of the quotient is the Euclidean quotient of the floor. -/
theorem floorDivNatPos (y : ℚ) (n : ℕ) (hn : 0 < n) :
    ⌊y / (n : ℚ)⌋ = ⌊y⌋ / (n : ℤ) := by
  have hnq : (0 : ℚ) < (n : ℚ) := by exact_mod_cast hn
  have hnz : (n : ℤ) ≠ 0 := by exact_mod_cast hn.ne'
  have hdm : (⌊y⌋ : ℤ) = (n : ℤ) * (⌊y⌋ / (n : ℤ)) + ⌊y⌋ % (n : ℤ) :=
    (Int.ediv_add_emod ⌊y⌋ (n : ℤ)).symm
  have hr0 : (0 : ℤ) ≤ ⌊y⌋ % (n : ℤ) := Int.emod_nonneg ⌊y⌋ hnz
  have hrn : ⌊y⌋ % (n : ℤ) + 1 ≤ (n : ℤ) :=
    Int.emod_lt_of_pos ⌊y⌋ (by exact_mod_cast hn)
  have h1 : ((⌊y⌋ : ℤ) : ℚ) ≤ y := Int.floor_le y
  have h2 : y < (⌊y⌋ : ℤ) + 1 := Int.lt_floor_add_one y
  have hdmq : ((⌊y⌋ : ℤ) : ℚ)
      = (n : ℚ) * ((⌊y⌋ / (n : ℤ) : ℤ) : ℚ) + ((⌊y⌋ % (n : ℤ) : ℤ) : ℚ) := by
    exact_mod_cast congrArg (fun z : ℤ => (z : ℚ)) hdm
  have hr0q : (0 : ℚ) ≤ ((⌊y⌋ % (n : ℤ) : ℤ) : ℚ) := by exact_mod_cast hr0
  have hrnq : ((⌊y⌋ % (n : ℤ) : ℤ) : ℚ) + 1 ≤ (n : ℚ) := by exact_mod_cast hrn
  rw [Int.floor_eq_iff]
  constructor
  · rw [le_div_iff₀ hnq]
    linarith
  · rw [div_lt_iff₀ hnq]
    push_cast at hdmq hrnq
    linarith

/-- Python `%` with a positive modulus never returns a negative value. -/
theorem pymod_nonneg (y : ℚ) (n : ℕ) (hn : 0 < n) : 0 ≤ pymod y (n : ℚ) := by
  have hnq : (0 : ℚ) < (n : ℚ) := by exact_mod_cast hn
  have := Int.sub_floor_div_mul_nonneg y hnq
  unfold pymod
  linarith [this]

/-- `int(y % n)` for a positive natural modulus is the Euclidean remainder
of the floor of `y`. -/
theorem pyintPymod (y : ℚ) (n : ℕ) (hn : 0 < n) :
    pyint (pymod y (n : ℚ)) = ⌊y⌋ % (n : ℤ) := by
  have h0 := pymod_nonneg y n hn
  unfold pyint
  rw [if_neg (not_lt.mpr h0)]
  unfold pymod
  have hcast : (n : ℚ) * (⌊y / (n : ℚ)⌋ : ℚ) = (((n : ℤ) * ⌊y / (n : ℚ)⌋ : ℤ) : ℚ) := by
    push_cast
    ring
  rw [hcast, Int.floor_sub_int, floorDivNatPos y n hn, Int.emod_def]

/-- The float chain `int((x/3600) % 24)` etc. of the source agrees with the
spec's floor-and-mod formulation, for every rational input. -/
theorem formatDuration_eq_spec (x : ℚ) : formatDuration x = specFormatHMS x := by
  unfold formatDuration specFormatHMS
  have e1 : pyint (pymod (x / (60 * 60)) 24) = ⌊x / 3600⌋ % 24 := by
    have h := pyintPymod (x / (60 * 60)) 24 (by norm_num)
    norm_num at h ⊢
    exact h
  have e2 : pyint (pymod (x / 60) 60) = ⌊x / 60⌋ % 60 := by
    have h := pyintPymod (x / 60) 60 (by norm_num)
    norm_num at h ⊢
    exact h
  have e3 : pyint (pymod x 60) = ⌊x⌋ % 60 := by
    have h := pyintPymod x 60 (by norm_num)
    norm_num at h ⊢
    exact h
  rw [e1, e2, e3]

/-- On integer second counts the whole duration computation collapses to
integer division and remainder. -/
theorem formatDurationInt (s : ℤ) :
    formatDuration (s : ℚ)
      = pad2 (s / 3600 % 24) ++ ":" ++ pad2 (s / 60 % 60) ++ ":" ++ pad2 (s % 60) := by
  rw [formatDuration_eq_spec]
  unfold specFormatHMS
  have e1 : ⌊(s : ℚ) / 3600⌋ = s / 3600 := by
    have h := floorDivNatPos (s : ℚ) 3600 (by norm_num)
    norm_num at h
    exact h
  have e2 : ⌊(s : ℚ) / 60⌋ = s / 60 := by
    have h := floorDivNatPos (s : ℚ) 60 (by norm_num)
    norm_num at h
    exact h
  have e3 : ⌊(s : ℚ)⌋ = s := Int.floor_intCast s
  rw [e1, e2, e3]

/-- MongoDB's dot-splitting of `'history.' + date` yields `"history"`
followed by the components of `date`. -/
theorem writePath_cons (date : List Char) :
    writePath date = "history".toList :: pySplit '.' date := rfl

/-- With a three-component date key the lookup of line 150 cannot raise and
agrees with the direct nested lookup. -/
theorem findStored_three (h : History) (y m d : List Char) :
    findStored h [y, m, d] = .ok (nestedFind h y m d) := by
  have e0 : findStored h [y, m, d]
      = (match alookup h y with
         | none => Except.ok none
         | some m1 =>
           match alookup m1 m with
           | none => Except.ok none
           | some m2 => Except.ok (alookup m2 d)) := rfl
  rw [e0]
  unfold nestedFind
  cases alookup h y with
  | none => rfl
  | some m1 =>
    show (match alookup m1 m with
          | none => Except.ok none
          | some m2 => Except.ok (alookup m2 d))
        = (Except.ok
            (match alookup m1 m with
             | none => none
             | some m2 => alookup m2 d) : Except PyExc (Option DayRecord))
    cases alookup m1 m with
    | none => rfl
    | some m2 => rfl

/-- Characterization of the day-record-found branch of `connection_log`. -/
theorem connection_log_found (user : UserData) (conn : ConnData)
    (y m d : List Char) (stored : DayRecord)
    (hsplit : pySplit '.' conn.date = [y, m, d])
    (hfind : nestedFind user.history y m d = some stored) :
    connection_log (some user) true conn
      = .ok (⟨writePath conn.date, false, mergeDayRecord conn stored⟩, true, none) := by
  have e0 : connection_log (some user) true conn
      = (match findStored user.history (pySplit '.' conn.date) with
         | .error e => .error e
         | .ok (some r) =>
           .ok (⟨writePath conn.date, false, mergeDayRecord conn r⟩, true, none)
         | .ok none =>
           .ok (⟨writePath conn.date, false, freshDayRecord conn⟩, true, none)) := rfl
  rw [e0, hsplit, findStored_three, hfind]

/-- Characterization of the user-found, day-record-missing branch. -/
theorem connection_log_dayMissing (user : UserData) (conn : ConnData)
    (y m d : List Char)
    (hsplit : pySplit '.' conn.date = [y, m, d])
    (hfind : nestedFind user.history y m d = none) :
    connection_log (some user) true conn
      = .ok (⟨writePath conn.date, false, freshDayRecord conn⟩, true, none) := by
  have e0 : connection_log (some user) true conn
      = (match findStored user.history (pySplit '.' conn.date) with
         | .error e => .error e
         | .ok (some r) =>
           .ok (⟨writePath conn.date, false, mergeDayRecord conn r⟩, true, none)
         | .ok none =>
           .ok (⟨writePath conn.date, false, freshDayRecord conn⟩, true, none)) := rfl
  rw [e0, hsplit, findStored_three, hfind]

/-- Characterization of the user-missing branch: the upserting write. -/
theorem connection_log_noUser (conn : ConnData) :
    connection_log none true conn
      = .ok (⟨writePath conn.date, true, freshDayRecord conn⟩, true, none) := rfl

/-- In the merge branch the stored duration text is always the formatted
value of the stored second count. -/
theorem mergeDayRecord_duration (conn : ConnData) (stored : DayRecord) :
    (mergeDayRecord conn stored).duration
      = formatDuration (((mergeDayRecord conn stored).seconds : ℤ) : ℚ) := by
  simp [mergeDayRecord]

/-- In the fresh-record branches the stored duration text is the formatted
value of the stored second count. -/
theorem freshDayRecord_duration (conn : ConnData) :
    (freshDayRecord conn).duration
      = formatDuration (((freshDayRecord conn).seconds : ℤ) : ℚ) := by
  simp [freshDayRecord]

/-- C1: continuation merge — when the user exists, a day record exists for
the event's day, and the incoming start time equals the stored one, the
written record has `seconds = stored.seconds + (event.last - stored.last)`,
byte counters replaced by the event's values, and the stored start time;
consequently two same-start-time updates with increasing `last` add the two
deltas to the cumulative seconds and leave the latest event's byte
counters. -/
theorem claim1_continuation_merge :
    (∀ (user : UserData) (conn : ConnData) (y m d : List Char) (stored : DayRecord),
      pySplit '.' conn.date = [y, m, d] →
      nestedFind user.history y m d = some stored →
      conn.start = stored.start →
      connection_log (some user) true conn
          = .ok (⟨writePath conn.date, false, mergeDayRecord conn stored⟩, true, none)
        ∧ (mergeDayRecord conn stored).seconds
            = stored.seconds + (conn.last - stored.last)
        ∧ (mergeDayRecord conn stored).bytesReceived = conn.bytes.received
        ∧ (mergeDayRecord conn stored).bytesSent = conn.bytes.sent
        ∧ (mergeDayRecord conn stored).start = stored.start)
    ∧ (∀ (r : DayRecord) (e1 e2 : ConnData),
      e1.start = r.start → e2.start = r.start →
      r.last ≤ e1.last → e1.last ≤ e2.last →
      (mergeDayRecord e2 (mergeDayRecord e1 r)).seconds
          = r.seconds + ((e1.last - r.last) + (e2.last - e1.last))
        ∧ (mergeDayRecord e2 (mergeDayRecord e1 r)).bytesReceived = e2.bytes.received
        ∧ (mergeDayRecord e2 (mergeDayRecord e1 r)).bytesSent = e2.bytes.sent) := by
  constructor
  · intro user conn y m d stored hsplit hfind hstart
    refine ⟨connection_log_found user conn y m d stored hsplit hfind, ?_, ?_, ?_, ?_⟩ <;>
      simp [mergeDayRecord, hstart]
  · intro r e1 e2 h1 h2 _ _
    have hm : (mergeDayRecord e1 r).start = r.start := by
      simp [mergeDayRecord, h1]
    have h2' : e2.start = (mergeDayRecord e1 r).start := by
      rw [hm, h2]
    refine ⟨?_, ?_, ?_⟩ <;>
      simp [mergeDayRecord, h1, h2', hm]
    ring

/-- Witness for C1 at the concrete fixtures. -/
theorem claim1_continuation_merge_witness :
    (connection_log (some exUser) true exContinuation
        = .ok (⟨writePath exContinuation.date, false,
                mergeDayRecord exContinuation exStored⟩, true, none)
      ∧ (mergeDayRecord exContinuation exStored).seconds
          = exStored.seconds + (exContinuation.last - exStored.last))
    ∧ (mergeDayRecord exContinuation2 (mergeDayRecord exContinuation exStored)).seconds
        = exStored.seconds
            + ((exContinuation.last - exStored.last)
                + (exContinuation2.last - exContinuation.last)) := by
  have h1 := claim1_continuation_merge.1 exUser exContinuation
    "2024".toList "10".toList "07".toList exStored (by decide) (by decide) (by decide)
  have h2 := claim1_continuation_merge.2 exStored exContinuation exContinuation2
    (by decide) (by decide) (by decide) (by decide)
  exact ⟨⟨h1.1, h1.2.1⟩, h2.1⟩

/-- C2: reconnect merge — when the user exists, a day record exists for the
event's day, and the incoming start time differs from the stored one, the
written record has `seconds = stored.seconds + (event.last - event.start)`,
byte counters summed with the stored ones, and the event's start time. -/
theorem claim2_reconnect_merge :
    ∀ (user : UserData) (conn : ConnData) (y m d : List Char) (stored : DayRecord),
      pySplit '.' conn.date = [y, m, d] →
      nestedFind user.history y m d = some stored →
      conn.start ≠ stored.start →
      connection_log (some user) true conn
          = .ok (⟨writePath conn.date, false, mergeDayRecord conn stored⟩, true, none)
        ∧ (mergeDayRecord conn stored).seconds
            = stored.seconds + (conn.last - conn.start)
        ∧ (mergeDayRecord conn stored).bytesReceived
            = conn.bytes.received + stored.bytesReceived
        ∧ (mergeDayRecord conn stored).bytesSent
            = conn.bytes.sent + stored.bytesSent
        ∧ (mergeDayRecord conn stored).start = conn.start := by
  intro user conn y m d stored hsplit hfind hstart
  refine ⟨connection_log_found user conn y m d stored hsplit hfind, ?_, ?_, ?_, ?_⟩ <;>
    simp [mergeDayRecord, hstart]

/-- Witness for C2 at the concrete fixtures. -/
theorem claim2_reconnect_merge_witness :
    connection_log (some exUser) true exReconnect
        = .ok (⟨writePath exReconnect.date, false,
                mergeDayRecord exReconnect exStored⟩, true, none)
      ∧ (mergeDayRecord exReconnect exStored).seconds
          = exStored.seconds + (exReconnect.last - exReconnect.start)
      ∧ (mergeDayRecord exReconnect exStored).bytesReceived
          = exReconnect.bytes.received + exStored.bytesReceived := by
  have h := claim2_reconnect_merge exUser exReconnect
    "2024".toList "10".toList "07".toList exStored (by decide) (by decide) (by decide)
  exact ⟨h.1, h.2.1, h.2.2.1⟩

/-- C3 counterexample: with the stored record at seconds 100, last 1100,
an event satisfying `last >= start` (start 1000, last 1050) and matching
the stored start time makes the merge write 50 cumulative seconds — the
counter decreases across the reconciliation merge. -/
theorem claim3_seconds_regress_counterexample :
    exRegress.start ≤ exRegress.last
    ∧ connection_log (some exUser) true exRegress
        = .ok (⟨writePath exRegress.date, false,
                mergeDayRecord exRegress exStored⟩, true, none)
    ∧ (mergeDayRecord exRegress exStored).seconds < exStored.seconds := by
  refine ⟨by decide, ?_, by decide⟩
  exact connection_log_found exUser exRegress
    "2024".toList "10".toList "07".toList exStored (by decide) (by decide)

/-- C3 amended: the cumulative seconds of a merged day record never
decrease provided the event additionally satisfies
`event.last >= storedRecord.last` (on top of `last >= start`); the source
subtracts the stored last timestamp in the continuation branch, so the
claimed precondition alone does not suffice. -/
theorem claim3_seconds_nondecreasing_amended :
    ∀ (user : UserData) (conn : ConnData) (y m d : List Char) (stored : DayRecord),
      pySplit '.' conn.date = [y, m, d] →
      nestedFind user.history y m d = some stored →
      conn.start ≤ conn.last →
      stored.last ≤ conn.last →
      ∀ (w : WriteOp) (b : Bool) (msg : Option String),
        connection_log (some user) true conn = .ok (w, b, msg) →
        stored.seconds ≤ w.record.seconds := by
  intro user conn y m d stored hsplit hfind hsl hll w b msg hok
  rw [connection_log_found user conn y m d stored hsplit hfind] at hok
  injection hok with hp
  injection hp with hw hrest
  rw [← hw]
  by_cases hstart : conn.start = stored.start
  · simp only [mergeDayRecord, if_pos hstart]
    linarith
  · simp only [mergeDayRecord, if_neg hstart]
    linarith

/-- Witness for the amended C3 at the concrete fixtures. -/
theorem claim3_seconds_nondecreasing_amended_witness :
    exStored.seconds ≤ (mergeDayRecord exContinuation exStored).seconds :=
  claim3_seconds_nondecreasing_amended exUser exContinuation
    "2024".toList "10".toList "07".toList exStored (by decide) (by decide)
    (by decide) (by decide)
    ⟨writePath exContinuation.date, false, mergeDayRecord exContinuation exStored⟩
    true none
    (connection_log_found exUser exContinuation
      "2024".toList "10".toList "07".toList exStored (by decide) (by decide))

/-- C4: at the failing input (store does not acknowledge the upsert) the
source does not return its `(False, "There was some error please retry")
result — the `logger.error` f-string on the line before it references the
undefined names `chat_id_new`, `chat_name` and `user_count`, so the call
raises `NameError`, in both the existing-user and the new-user write
paths; no user id or date key reaches the caller. -/
theorem claim4_unacknowledged_raises_nameerror :
    connection_log (some exUser) false exContinuation = .error .nameError
    ∧ connection_log none false exContinuation = .error .nameError := by
  constructor
  · decide
  · decide

/-- The acknowledged-false paths never produce a successful result. -/
theorem connection_log_ack_false (userOpt : Option UserData) (conn : ConnData)
    (r : WriteOp × Bool × Option String) :
    connection_log userOpt false conn ≠ .ok r := by
  cases userOpt with
  | none => simp [connection_log]
  | some user =>
    have e0 : connection_log (some user) false conn
        = (match findStored user.history (pySplit '.' conn.date) with
           | .error e => (.error e : Except PyExc (WriteOp × Bool × Option String))
           | .ok (some _) => .error .nameError
           | .ok none => .error .nameError) := rfl
    rw [e0]
    cases findStored user.history (pySplit '.' conn.date) with
    | error e => simp
    | ok o => cases o <;> simp

/-- C5: duration formatting — the source's float chain agrees with the
zero-padded `HH:MM:SS` formula (`HH = floor(x/3600) mod 24`,
`MM = floor(x/60) mod 60`, `SS = floor(x) mod 60`) for every non-negative
input, the two example values hold, and in every branch of
`connection_log` the written record's duration text is the formatted value
of its cumulative seconds. -/
theorem claim5_duration_format :
    (∀ x : ℚ, 0 ≤ x → formatDuration x = specFormatHMS x)
    ∧ formatDuration 3661 = "01:01:01"
    ∧ formatDuration 90000 = "01:00:00"
    ∧ (∀ (userOpt : Option UserData) (ack : Bool) (conn : ConnData)
        (w : WriteOp) (b : Bool) (msg : Option String),
      connection_log userOpt ack conn = .ok (w, b, msg) →
      w.record.duration = formatDuration ((w.record.seconds : ℤ) : ℚ)) := by
  refine ⟨fun x _ => formatDuration_eq_spec x, ?_, ?_, ?_⟩
  · have h := formatDurationInt 3661
    norm_num at h
    exact h
  · have h := formatDurationInt 90000
    norm_num at h
    exact h
  · intro userOpt ack conn w b msg hok
    cases ack with
    | false => exact absurd hok (connection_log_ack_false userOpt conn (w, b, msg))
    | true =>
      cases userOpt with
      | none =>
        rw [connection_log_noUser] at hok
        simp only [Except.ok.injEq, Prod.mk.injEq] at hok
        obtain ⟨hw, _, _⟩ := hok
        rw [← hw]
        exact freshDayRecord_duration conn
      | some user =>
        have e0 : connection_log (some user) true conn
            = (match findStored user.history (pySplit '.' conn.date) with
               | .error e => .error e
               | .ok (some r) =>
                 .ok (⟨writePath conn.date, false, mergeDayRecord conn r⟩, true, none)
               | .ok none =>
                 .ok (⟨writePath conn.date, false, freshDayRecord conn⟩, true, none)) := rfl
        rw [e0] at hok
        cases hfs : findStored user.history (pySplit '.' conn.date) with
        | error e =>
          rw [hfs] at hok
          exact absurd hok (by simp)
        | ok o =>
          rw [hfs] at hok
          cases o with
          | none =>
            simp only [Except.ok.injEq, Prod.mk.injEq] at hok
            obtain ⟨hw, _, _⟩ := hok
            rw [← hw]
            exact freshDayRecord_duration conn
          | some stored =>
            simp only [Except.ok.injEq, Prod.mk.injEq] at hok
            obtain ⟨hw, _, _⟩ := hok
            rw [← hw]
            exact mergeDayRecord_duration conn stored

/-- Witness for C5: the formula instantiated at 3661 and the branch
property instantiated at the new-user write for a concrete event. -/
theorem claim5_duration_format_witness :
    formatDuration 3661 = specFormatHMS 3661
    ∧ (freshDayRecord exContinuation).duration
        = formatDuration (((freshDayRecord exContinuation).seconds : ℤ) : ℚ) :=
  ⟨claim5_duration_format.1 3661 (by simp),
   claim5_duration_format.2.2.2 none true exContinuation
     ⟨writePath exContinuation.date, true, freshDayRecord exContinuation⟩ true none
     (connection_log_noUser exContinuation)⟩

/-- C6 counterexample: with the dash-separated date key `2024-10-07` that
the claim names, the split on `'.'` yields a single component — no
`{year, month, day}` decomposition — and the write targets the flat field
path `history → "2024-10-07"` instead of the nested three-level mapping. -/
theorem claim6_datekey_counterexample :
    pySplit '.' exDash.date = ["2024-10-07".toList]
    ∧ (connection_log (some exUser) true exDash).toOption.map (fun r => r.1.path)
        = some ["history".toList, "2024-10-07".toList]
    ∧ ["history".toList, "2024-10-07".toList]
        ≠ ["history".toList, "2024".toList, "10".toList, "07".toList] := by
  refine ⟨by decide, ?_, by decide⟩
  decide

/-- C6 amended: the date key is dot-separated (`YYYY.MM.DD`); whenever the
event's date splits on `'.'` into three components, both the lookup and
the persisted write use the nested `year → month → day` mapping: the write
path is `history → y → m → d` and the stored record is the merge with the
nested lookup's result when that lookup succeeds, the fresh record
otherwise. -/
theorem claim6_datekey_amended :
    ∀ (user : UserData) (conn : ConnData) (y m d : List Char),
      pySplit '.' conn.date = [y, m, d] →
      writePath conn.date = ["history".toList, y, m, d]
      ∧ ∀ (w : WriteOp) (b : Bool) (msg : Option String),
          connection_log (some user) true conn = .ok (w, b, msg) →
          w.path = ["history".toList, y, m, d]
          ∧ w.record = (match nestedFind user.history y m d with
                        | some stored => mergeDayRecord conn stored
                        | none => freshDayRecord conn) := by
  intro user conn y m d hsplit
  have hpath : writePath conn.date = ["history".toList, y, m, d] := by
    rw [writePath_cons, hsplit]
  refine ⟨hpath, ?_⟩
  intro w b msg hok
  cases hfs : nestedFind user.history y m d with
  | some stored =>
    rw [connection_log_found user conn y m d stored hsplit hfs] at hok
    simp only [Except.ok.injEq, Prod.mk.injEq] at hok
    obtain ⟨hw, _, _⟩ := hok
    rw [← hw]
    exact ⟨hpath, rfl⟩
  | none =>
    rw [connection_log_dayMissing user conn y m d hsplit hfs] at hok
    simp only [Except.ok.injEq, Prod.mk.injEq] at hok
    obtain ⟨hw, _, _⟩ := hok
    rw [← hw]
    exact ⟨hpath, rfl⟩

/-- Witness for the amended C6 at the concrete fixtures. -/
theorem claim6_datekey_amended_witness :
    writePath exContinuation.date
      = ["history".toList, "2024".toList, "10".toList, "07".toList] :=
  (claim6_datekey_amended exUser exContinuation
    "2024".toList "10".toList "07".toList (by decide)).1

/-- C7 counterexample: for `load-stats`, when the first received chunk is a
non-empty `>INFO` notification line, its bytes arrive but are stripped to
nothing, so the loop does not return on the first chunk — it consumes a
second one. -/
theorem claim7_loadstats_first_chunk_counterexample :
    ">INFO x\r\n".toList ≠ []
    ∧ waitForData (some "load-stats\n")
        [">INFO x\r\n".toList, "7,8\r\n".toList]
        = some (2, "7,8\r\n".toList) := by
  refine ⟨by decide, ?_⟩
  decide

/-- C7 amended: for `load-stats` the loop returns after the first chunk
whose contribution survives `>INFO` stripping — whenever the first chunk
strips to something non-empty, exactly one chunk is consumed and its
stripped text returned, without any `\nEND\r\n` terminator. -/
theorem claim7_loadstats_first_chunk_amended :
    ∀ (c : List Char) (rest : List (List Char)),
      stripInfo c ≠ [] →
      waitForData (some "load-stats\n") (c :: rest) = some (1, stripInfo c) := by
  intro c rest hne
  simp only [waitForData, waitForDataAux, List.nil_append]
  by_cases h1 :
      ("SUCCESS: password is correct\r\n".toList).isSuffixOf (stripInfo c) = true
  · rw [if_pos h1]
  · rw [if_neg h1, if_pos (And.intro trivial hne)]

/-- Witness for the amended C7 at a concrete status chunk. -/
theorem claim7_loadstats_first_chunk_amended_witness :
    waitForData (some "load-stats\n") ["7,8\r\n".toList]
      = some (1, stripInfo "7,8\r\n".toList) :=
  claim7_loadstats_first_chunk_amended "7,8\r\n".toList [] (by decide)

/-- C8 counterexample: an OS-level socket error arriving after the socket
was assigned (for example a refused unix-socket connect) leaves the client
disconnected but the partially-opened socket open — the `socket.error`
handler re-raises without closing. -/
theorem claim8_connect_socket_left_open_counterexample :
    socket_connect .unset (.failAfterAssign .socketError)
      = ({ connected := false, sockAttr := .openSock }, some .socketError)
    ∧ SockAttr.openSock ≠ SockAttr.closedSock := by
  refine ⟨?_, by decide⟩
  decide

/-- C8 amended: every connect failure leaves the client with
`__connected = False`, but only the timeout handler closes a
partially-opened socket; on OS-level socket errors and on any other
exception the socket attribute is left open. -/
theorem claim8_connect_failures_amended :
    ∀ (pre : SockAttr) (e : PyExc),
      (socket_connect pre (.failBeforeAssign e)).1.connected = false
      ∧ (socket_connect pre (.failAfterAssign e)).1.connected = false
      ∧ (socket_connect pre (.failAfterAssign .timeoutError)).1.sockAttr = .closedSock
      ∧ (e ≠ .timeoutError →
          (socket_connect pre (.failAfterAssign e)).1.sockAttr = .openSock) := by
  intro pre e
  cases pre <;> cases e <;> decide

/-- Witness for the amended C8 at the socket-error outcome. -/
theorem claim8_connect_failures_amended_witness :
    (socket_connect .unset (.failAfterAssign .socketError)).1.connected = false
    ∧ (socket_connect .unset (.failAfterAssign .socketError)).1.sockAttr = .openSock := by
  have h := claim8_connect_failures_amended .unset .socketError
  exact ⟨h.2.1, h.2.2.2 (by decide)⟩

/-- A line matching only the connection-reset pattern adds its delta from
the current anchor to the day total of the anchor's day. -/
theorem processLine_reset_step (st : ScanState) (line : LogLine) (s : ℤ)
    (hS : line.matchesStart = false) (hR : line.matchesReset = true)
    (hRe : line.matchesRestart = false) (hA : st.startTime = some s) :
    processLine st line
      = { st with activeTime := dictAdd st.activeTime (dayOf s) (line.time - s) } := by
  simp [processLine, hS, hR, hRe, hA]

/-- A line matching only the ping-restart pattern adds its delta from the
current anchor to the day total of the anchor's day. -/
theorem processLine_restart_step (st : ScanState) (line : LogLine) (s : ℤ)
    (hS : line.matchesStart = false) (hR : line.matchesReset = false)
    (hRe : line.matchesRestart = true) (hA : st.startTime = some s) :
    processLine st line
      = { st with activeTime := dictAdd st.activeTime (dayOf s) (line.time - s) } := by
  simp [processLine, hS, hR, hRe, hA]

/-- With no anchor, a line that is not a start marker leaves the state
unchanged, whatever markers it carries. -/
theorem processLine_no_anchor (st : ScanState) (line : LogLine)
    (hS : line.matchesStart = false) (hA : st.startTime = none) :
    processLine st line = st := by
  simp [processLine, hS, hA]

/-- A non-start line never modifies the anchor. -/
theorem processLine_keeps_anchor (st : ScanState) (line : LogLine)
    (hS : line.matchesStart = false) :
    (processLine st line).startTime = st.startTime := by
  simp only [processLine, hS, Bool.false_eq_true, if_false]
  cases hR : line.matchesReset with
  | false =>
    simp only [Bool.false_eq_true, if_false]
    cases hRe : line.matchesRestart with
    | false => simp
    | true =>
      cases hA : st.startTime with
      | none => simp [hA]
      | some s => simp [hA]
  | true =>
    cases hA : st.startTime with
    | none =>
      simp only [hA, if_true]
      cases hRe : line.matchesRestart with
      | false => simp [hA]
      | true => simp [hA]
    | some s =>
      simp only [hA, if_true]
      cases hRe : line.matchesRestart with
      | false => simp [hA]
      | true => simp [hA]

/-- C9: a reset or restart marker with a start anchor present contributes
`markerTime - startTime` to the running total keyed by the anchor's
calendar day, summing into any prior total for that day; with no anchor
the marker is ignored; and the three-line log (non-matching line, start
marker at 1700000000, reset marker 90 s later) yields exactly the mapping
from that day to 90 seconds. -/
theorem claim9_logscan_reset_delta :
    (∀ (st : ScanState) (line : LogLine) (s : ℤ),
      line.matchesStart = false → line.matchesReset = true →
      line.matchesRestart = false → st.startTime = some s →
      processLine st line
        = { st with activeTime := dictAdd st.activeTime (dayOf s) (line.time - s) })
    ∧ (∀ (st : ScanState) (line : LogLine) (s : ℤ),
      line.matchesStart = false → line.matchesReset = false →
      line.matchesRestart = true → st.startTime = some s →
      processLine st line
        = { st with activeTime := dictAdd st.activeTime (dayOf s) (line.time - s) })
    ∧ (∀ (st : ScanState) (line : LogLine),
      line.matchesStart = false → st.startTime = none →
      processLine st line = st)
    ∧ (scanLog [exLineOther, exLineStart, exLineReset]).activeTime
        = [(dayOf 1700000000, 90)] := by
  refine ⟨processLine_reset_step, processLine_restart_step, processLine_no_anchor, ?_⟩
  decide

/-- Witness for C9: the reset step applied to a concrete anchored state. -/
theorem claim9_logscan_reset_delta_witness :
    processLine ⟨some 1700000000, []⟩ exLineReset
      = { startTime := some 1700000000,
          activeTime := dictAdd [] (dayOf 1700000000) (exLineReset.time - 1700000000) } :=
  claim9_logscan_reset_delta.1 ⟨some 1700000000, []⟩ exLineReset 1700000000
    (by decide) (by decide) (by decide) (by decide)

/-- C10: the scanner never clears the anchor on a reset or restart marker
— any non-start line leaves `startTime` unchanged — so two consecutive
reset markers after one start marker each add their own delta measured
from the same original start time: the concrete log start@1700000000,
reset@1700000090, reset@1700000150 totals (90 + 150) seconds for the day,
double-counting the 90 seconds before the first reset. -/
theorem claim10_anchor_never_cleared :
    (∀ (st : ScanState) (line : LogLine),
      line.matchesStart = false →
      (processLine st line).startTime = st.startTime)
    ∧ (∀ (st : ScanState) (s : ℤ) (l1 l2 : LogLine),
      st.startTime = some s →
      l1.matchesStart = false → l1.matchesReset = true → l1.matchesRestart = false →
      l2.matchesStart = false → l2.matchesReset = true → l2.matchesRestart = false →
      (processLine (processLine st l1) l2).activeTime
          = dictAdd (dictAdd st.activeTime (dayOf s) (l1.time - s))
              (dayOf s) (l2.time - s)
        ∧ (processLine (processLine st l1) l2).startTime = some s)
    ∧ (scanLog [exLineStart, exLineReset, exLineReset2]).activeTime
        = [(dayOf 1700000000, (1700000090 - 1700000000) + (1700000150 - 1700000000))] := by
  refine ⟨processLine_keeps_anchor, ?_, ?_⟩
  · intro st s l1 l2 hA hS1 hR1 hRe1 hS2 hR2 hRe2
    have h1 := processLine_reset_step st l1 s hS1 hR1 hRe1 hA
    have hA2 : (processLine st l1).startTime = some s := by
      rw [h1]
      exact hA
    have h2 := processLine_reset_step (processLine st l1) l2 s hS2 hR2 hRe2 hA2
    rw [h2, h1]
    exact ⟨rfl, hA⟩
  · decide

/-- Witness for C10: anchor preservation and the double-counting
composition at concrete inputs. -/
theorem claim10_anchor_never_cleared_witness :
    (processLine ⟨some 1700000000, []⟩ exLineReset).startTime = some 1700000000
    ∧ (processLine (processLine ⟨some 1700000000, []⟩ exLineReset) exLineReset2).activeTime
        = dictAdd (dictAdd [] (dayOf 1700000000) (exLineReset.time - 1700000000))
            (dayOf 1700000000) (exLineReset2.time - 1700000000) := by
  have h1 := claim10_anchor_never_cleared.1 ⟨some 1700000000, []⟩ exLineReset (by decide)
  have h2 := claim10_anchor_never_cleared.2.1 ⟨some 1700000000, []⟩ 1700000000
    exLineReset exLineReset2 (by decide) (by decide) (by decide) (by decide)
    (by decide) (by decide) (by decide)
  exact ⟨h1, h2.1⟩
